import Mathlib

/-!
A shallow embedding of the playlist-automation job runner of the
Rumble-Live-Ops browser extension, together with proofs about its
observable behaviour.

The embedded code:
* `DirectVideoApplyJob` (background service worker): `toAbs`, `stripParams`,
  `cleanup`, `sendProgress`, `next`, `onUpdated`, the worker-message handler
  and `start`, modelled as a state machine driven by browser events.
* `resolveIdsFromNames` and the `videoWorkerRun` handler of
  `playlist-automator.js`, modelled as pure functions of their inputs and of
  the DOM-interaction outcomes.
* the global `chrome.tabs.onRemoved` listener of the background worker,
  modelled over the pending-job registries it cleans.

Browser primitives (`chrome.tabs.*`, `chrome.runtime.sendMessage`,
`setTimeout`) are modelled as an action log and as external events; the
single-threaded event loop of the extension corresponds to the sequential
application of `step`.
-/

namespace RLO

set_option maxRecDepth 8000

/-! ## URL normalisation (`DirectVideoApplyJob.toAbs` / `stripParams`) -/

/-- `a.startsWith(b)`, computed structurally on the character lists. -/
def strHasPre (pre s : String) : Bool :=
  pre.data.isPrefixOf s.data

/-- Does the string start with an explicit http(s) scheme?  Such strings are
exactly the ones `new URL(u, base)` treats as already absolute (for the http
URLs exercised by this job runner). -/
def isAbsoluteHttpUrl (s : String) : Bool :=
  strHasPre "http://" s || strHasPre "https://" s

/-- `toAbs(u)`: models `new URL(u, 'https://rumble.com').toString()` for the
inputs exercised here: an absolute http(s) URL is returned as-is, anything
else is resolved against the `https://rumble.com` base. -/
def toAbs (u : String) : String :=
  if isAbsoluteHttpUrl u then u
  else if strHasPre "/" u then "https://rumble.com" ++ u
  else "https://rumble.com/" ++ u

/-- Remove every trailing `/` (the `replace(/\/+$/, '')` of `stripParams`). -/
def dropTrailingSlashes (s : String) : String :=
  ⟨(s.data.reverse.dropWhile (fun c => c == '/')).reverse⟩

/-- Cut the string at the first `?` or `#`: models clearing `search` and
`hash` on a parsed http(s) URL before re-serialising it. -/
def cutAtQueryOrHash (s : String) : String :=
  ⟨s.data.takeWhile (fun c => c ≠ '?' && c ≠ '#')⟩

/-- `stripParams(u)`: on a string that parses as a URL, drop the query and
fragment and any trailing slashes; on a string that does not parse (the
`catch` branch), only strip trailing slashes. -/
def stripParams (u : String) : String :=
  if isAbsoluteHttpUrl u then dropTrailingSlashes (cutAtQueryOrHash u)
  else dropTrailingSlashes u

/-! ## First-occurrence deduplication (`Array.from(new Set(xs))`) -/

/-- Worker of `jsDedup`: `seen` holds the elements already emitted. -/
def jsDedupAux (seen : List String) : List String → List String
  | [] => []
  | a :: l => if a ∈ seen then jsDedupAux seen l else a :: jsDedupAux (a :: seen) l

/-- `Array.from(new Set(xs))`: keeps the first occurrence of each element,
in encounter order. -/
def jsDedup (l : List String) : List String := jsDedupAux [] l

/-! ## Playlist-name resolution (`playlist-automator.js`, `resolveIdsFromNames`) -/

/-- ASCII-faithful model of JavaScript `String.prototype.toLowerCase`. -/
def jsLower (s : String) : String := ⟨s.data.map Char.toLower⟩

/-- `String.prototype.trim`: strip leading and trailing whitespace. -/
def jsTrim (s : String) : String :=
  ⟨((s.data.dropWhile Char.isWhitespace).reverse.dropWhile Char.isWhitespace).reverse⟩

/-- One entry of the `userPlaylists` array kept in `chrome.storage.local`
(the playlist directory harvested elsewhere).  Identifier-like fields are
kept as strings, matching the `String(...)` coercion at the use site. -/
structure StoredPlaylist where
  title : String
  id : Option String
  playlist_id : Option String
  slug : Option String
  deriving DecidableEq

/-- `String(p.id ?? p.playlist_id ?? p.slug ?? '').trim()`. -/
def storedIdOf (p : StoredPlaylist) : String :=
  jsTrim (p.id.getD (p.playlist_id.getD (p.slug.getD "")))

/-- Lookup in a `new Map(pairs)`: the last pair wins for a duplicated key. -/
def jsMapGet (pairs : List (String × String)) (k : String) : Option String :=
  (pairs.reverse.find? (fun kv => kv.1 == k)).map (·.2)

/-- `resolveIdsFromNames(nameList)` with the `userPlaylists` storage passed
explicitly: trims, lowercases and dedups the names, builds the
lowercased-title → id map, resolves each name and drops blanks. -/
def resolveIdsFromNames (nameList : List String) (userPlaylists : List StoredPlaylist) :
    List String :=
  let names := jsDedup ((nameList.map (fun s => jsLower (jsTrim s))).filter (fun s => s ≠ ""))
  if names.isEmpty then []
  else
    let map := userPlaylists.map (fun p => (jsLower (jsTrim p.title), storedIdOf p))
    let resolved := (names.filterMap (jsMapGet map)).filter (fun s => s ≠ "")
    jsDedup resolved

/-! ## The bulk job state machine (`DirectVideoApplyJob`)

The job runner lives in the background service worker and is driven by
browser callbacks.  We model the runtime messages it broadcasts
(`chrome.runtime.sendMessage`), the tab operations it requests
(`chrome.tabs.*`, `chrome.scripting.executeScript`,
`chrome.tabs.sendMessage`) as an append-only log, and the pending
callbacks/timer as an explicit phase.  Every handler below is a direct
transcription of the correspondingly named function of the source. -/

/-- Runtime messages broadcast by the job (`playlist-apply-*`). -/
inductive RtMsg
  | started (total : Nat) (mode : String)
  | progress (done total : Nat) (currentVideoUrl : Option String) (note : String)
  | complete (successCount total : Nat) (note : String)
  | error (message : String)
  deriving DecidableEq

/-- Tab/scripting operations requested from the browser. -/
inductive TabAction
  | create (url : String)
  | update (tabId : Nat) (url : String)
  | remove (tabId : Nat)
  | executeScript (tabId : Nat)
  | sendWorkerRun (tabId : Nat)
  deriving DecidableEq

/-- The mutable `job` object of `DirectVideoApplyJob`.  `videoTimer` is
`true` while the per-video timeout is armed; `onWorkerMsg` is `true` once
the worker-result listener has been registered. -/
structure Job where
  playlistIds : List String
  playlistNames : List String
  clearAll : Bool
  perVideoTimeoutMs : Nat
  queue : List String
  total : Nat
  done : Nat
  currentUrl : Option String
  tabId : Option Nat
  debugKeepTab : Bool
  videoTimer : Bool
  onWorkerMsg : Bool
  deriving DecidableEq

/-- Which browser callback the job is currently waiting on.  In the source
this is implicit in which callbacks are pending on the event loop:
`creating` = the `chrome.tabs.create` callback, `loading` = an
`onUpdated`/`status === 'complete'` event for the hidden tab, `injecting` =
the `executeScript` callback, `awaitingWorker` = the worker's
`videoWorkerResult` message or the armed timeout.  `noJob` means `job ===
null`. -/
inductive Phase
  | creating
  | loading
  | injecting
  | awaitingWorker
  | noJob
  deriving DecidableEq

/-- Background-worker state relevant to one bulk job: the `job` variable,
the pending-callback phase, and the logs of emitted runtime messages and
requested tab operations (in chronological order). -/
structure BgState where
  job : Option Job
  phase : Phase
  msgs : List RtMsg
  actions : List TabAction
  deriving DecidableEq

def sendMsg (s : BgState) (m : RtMsg) : BgState := { s with msgs := s.msgs ++ [m] }

def act (s : BgState) (a : TabAction) : BgState := { s with actions := s.actions ++ [a] }

/-- `cleanup()`: close the hidden tab (unless `debugKeepTab`), unregister
the listeners, clear the timer, null the job. -/
def cleanup (s : BgState) : BgState :=
  match s.job with
  | none => s
  | some j =>
    let s' := if !j.debugKeepTab then
        match j.tabId with
        | some t => act s (TabAction.remove t)
        | none => s
      else s
    { s' with job := none, phase := Phase.noJob }

/-- `next()`: clear the timer, then either emit `playlist-apply-complete`
and tear down (empty queue) or shift the next URL and navigate the hidden
tab to it (`chrome.tabs.update`). -/
def next (s : BgState) : BgState :=
  match s.job with
  | none => s
  | some j =>
    let j := { j with videoTimer := false }
    match j.queue with
    | [] =>
      cleanup (sendMsg { s with job := some j }
        (RtMsg.complete j.done j.total "All videos processed."))
    | u :: rest =>
      let j := { j with currentUrl := some u, queue := rest }
      let s := { s with job := some j, phase := Phase.loading }
      match j.tabId with
      | some t => act s (TabAction.update t u)
      | none => s

/-- The shared tail of the three terminal paths for one target
(injection failure, timeout, worker result): `job.done += 1`, then
`sendProgress(note)` — which reads the updated `job.done` — then `next()`.
`next()` begins by clearing the timer, so folding the worker-path
`clearTimeout` into the same definition does not change the semantics. -/
def finishTarget (s : BgState) (j : Job) (note : String) : BgState :=
  let j := { j with videoTimer := false, done := j.done + 1 }
  next (sendMsg { s with job := some j }
    (RtMsg.progress j.done j.total j.currentUrl note))

/-- The `chrome.tabs.create` callback inside `start()`: on failure emit
`playlist-apply-complete` with `successCount: 0` and clean up; on success
record the tab id, register the `onUpdated` and worker-message listeners,
and shift the first URL (already being loaded by `tabs.create`). -/
def onTabCreated (s : BgState) (tab : Option Nat) : BgState :=
  match s.job with
  | none => s
  | some j =>
    if s.phase = Phase.creating then
      match tab with
      | none =>
        cleanup (sendMsg s (RtMsg.complete 0 j.total "Failed to create hidden tab."))
      | some t =>
        let j := { j with tabId := some t, onWorkerMsg := true,
                          currentUrl := j.queue.head?, queue := j.queue.tail }
        { s with job := some j, phase := Phase.loading }
    else s

/-- `onUpdated(tabId, changeInfo, tab)` for the job's tab reaching
`status === 'complete'`: request injection of `playlist-automator.js`.
(The model delivers one load-completion per requested navigation.) -/
def onTabLoaded (s : BgState) : BgState :=
  match s.job with
  | none => s
  | some j =>
    if s.phase = Phase.loading then
      match j.tabId with
      | some t => { act s (TabAction.executeScript t) with phase := Phase.injecting }
      | none => s
    else s

/-- The `executeScript` callback: on `chrome.runtime.lastError` count the
target as done with note `Inject failed; skipping.` and advance; otherwise
arm the per-video timeout and send `videoWorkerRun` to the tab. -/
def onInjectResult (s : BgState) (ok : Bool) : BgState :=
  match s.job with
  | none => s
  | some j =>
    if s.phase = Phase.injecting then
      if !ok then
        finishTarget s j "Inject failed; skipping."
      else
        let j := { j with videoTimer := true }
        match j.tabId with
        | some t =>
          { act { s with job := some j } (TabAction.sendWorkerRun t) with
              phase := Phase.awaitingWorker }
        | none => s
    else s

/-- The armed `setTimeout` firing: count the target as done with note
`Timeout; skipping.` and advance. -/
def onTimerFire (s : BgState) : BgState :=
  match s.job with
  | some j =>
    if j.videoTimer then finishTarget s j "Timeout; skipping."
    else s
  | none => s

/-- `job.onWorkerMsg` receiving `videoWorkerResult` from the job's tab:
clear the timeout, count the target as done with the success/skip note, and
advance.  (The model delivers worker results only while the job is waiting
on the injected worker.) -/
def onWorkerResult (s : BgState) (ok : Bool) (reason : Option String) : BgState :=
  match s.job with
  | none => s
  | some j =>
    if s.phase = Phase.awaitingWorker ∧ j.onWorkerMsg = true then
      finishTarget s j
        (if ok then (if j.clearAll then "Cleared" else "Updated")
         else "Skipped: " ++ reason.getD "unknown")
    else s

/-- External events driving the job's handlers.  `tabRemoved` is the
`chrome.tabs.onRemoved` event: the background worker's listener cleans the
scrape/raid/bulk registries (modelled separately below) but never touches
the `DirectVideoApplyJob` state, so here it is the identity. -/
inductive Ev
  | tabCreated (tab : Option Nat)
  | tabLoaded
  | injectResult (ok : Bool)
  | timerFire
  | workerResult (ok : Bool) (reason : Option String)
  | tabRemoved (tabId : Nat)
  deriving DecidableEq

def step (s : BgState) : Ev → BgState
  | Ev.tabCreated t => onTabCreated s t
  | Ev.tabLoaded => onTabLoaded s
  | Ev.injectResult ok => onInjectResult s ok
  | Ev.timerFire => onTimerFire s
  | Ev.workerResult ok r => onWorkerResult s ok r
  | Ev.tabRemoved _ => s

def run (s : BgState) (evs : List Ev) : BgState := evs.foldl step s

/-- The payload of the `applyPlaylistsToVideos` message, with the source's
defaults. -/
structure Payload where
  playlistIds : List String := []
  playlistNames : List String := []
  videoUrls : List String := []
  debugKeepTab : Bool := false
  clearAll : Bool := false
  perVideoTimeoutMs : Nat := 30000
  deriving DecidableEq

/-- `const abs = videoUrls.map(toAbs).map(stripParams); const unique =
Array.from(new Set(abs));` -/
def normalizeUrls (videoUrls : List String) : List String :=
  jsDedup ((videoUrls.map toAbs).map stripParams)

/-- The rejection condition of `start()`:
`!unique.length || (!clearAll && !playlistIds.length && !playlistNames.length)`. -/
def startRejected (p : Payload) : Bool :=
  (normalizeUrls p.videoUrls).isEmpty ||
    (!p.clearAll && p.playlistIds.isEmpty && p.playlistNames.isEmpty)

/-- `start(payload)`: clean up any previous job, normalise and dedup the
URLs, fail fast with `playlist-apply-error` if there is nothing to do,
otherwise build the job, emit `playlist-apply-started` and request the
hidden tab. -/
def startJob (s : BgState) (p : Payload) : BgState :=
  let s := cleanup s
  let unique := normalizeUrls p.videoUrls
  if startRejected p then
    sendMsg s (RtMsg.error "Missing videos or playlists.")
  else
    let j : Job :=
      { playlistIds := p.playlistIds
        playlistNames := p.playlistNames
        clearAll := p.clearAll
        perVideoTimeoutMs := p.perVideoTimeoutMs
        queue := unique
        total := unique.length
        done := 0
        currentUrl := none
        tabId := none
        debugKeepTab := p.debugKeepTab
        videoTimer := false
        onWorkerMsg := false }
    let s := sendMsg { s with job := some j, phase := Phase.creating }
      (RtMsg.started j.total (if p.clearAll then "clear" else "set"))
    act s (TabAction.create (unique.head?.getD ""))

/-- The background worker before any bulk job was submitted. -/
def initState : BgState := { job := none, phase := Phase.noJob, msgs := [], actions := [] }

/-- The job object built by an accepted `start(p)`. -/
def initialJob (p : Payload) : Job :=
  { playlistIds := p.playlistIds
    playlistNames := p.playlistNames
    clearAll := p.clearAll
    perVideoTimeoutMs := p.perVideoTimeoutMs
    queue := normalizeUrls p.videoUrls
    total := (normalizeUrls p.videoUrls).length
    done := 0
    currentUrl := none
    tabId := none
    debugKeepTab := p.debugKeepTab
    videoTimer := false
    onWorkerMsg := false }

/-- The job object right after the `tabs.create` callback recorded tab `t`
and consumed the first queued URL. -/
def startedJob (p : Payload) (t : Nat) : Job :=
  { initialJob p with
    tabId := some t
    onWorkerMsg := true
    currentUrl := (initialJob p).queue.head?
    queue := (initialJob p).queue.tail }

/-! ## Observations on the message and action logs -/

/-- The `done` fields of the `playlist-apply-progress` messages, in
emission order. -/
def progressDones (msgs : List RtMsg) : List Nat :=
  msgs.filterMap fun m =>
    match m with
    | RtMsg.progress d _ _ _ => some d
    | _ => none

/-- The `note` fields of the `playlist-apply-progress` messages, in
emission order. -/
def progressNotes (msgs : List RtMsg) : List String :=
  msgs.filterMap fun m =>
    match m with
    | RtMsg.progress _ _ _ n => some n
    | _ => none

/-- The `playlist-apply-complete` messages, projected to
`(successCount, total, note)`, in emission order. -/
def completes (msgs : List RtMsg) : List (Nat × Nat × String) :=
  msgs.filterMap fun m =>
    match m with
    | RtMsg.complete c t n => some (c, t, n)
    | _ => none

def isCreate : TabAction → Bool
  | TabAction.create _ => true
  | _ => false

def isRemove : TabAction → Bool
  | TabAction.remove _ => true
  | _ => false

def countCreate (acts : List TabAction) : Nat := (acts.filter isCreate).length

def countRemove (acts : List TabAction) : Nat := (acts.filter isRemove).length

/-! ## The job-lifecycle invariant

`RunInv N s j` captures a state in which a job over `N` deduplicated
targets is still alive; `DoneInv N s` captures the state after teardown.
Together they are preserved by every event. -/

/-- Invariant of a live job (`job !== null`). -/
structure RunInv (N : Nat) (s : BgState) (j : Job) : Prop where
  total_eq : j.total = N
  npos : 0 < N
  counting : j.done + j.queue.length + (if j.currentUrl.isSome then 1 else 0) = N
  phase_run : s.phase ≠ Phase.noJob
  creating_char : s.phase = Phase.creating →
    j.tabId = none ∧ j.currentUrl = none ∧ j.done = 0 ∧ j.onWorkerMsg = false
  post_create : s.phase ≠ Phase.creating →
    j.tabId.isSome = true ∧ j.currentUrl.isSome = true ∧ j.onWorkerMsg = true
  timer_iff : j.videoTimer = true ↔ s.phase = Phase.awaitingWorker
  dones : progressDones s.msgs = List.range' 1 j.done
  no_complete : completes s.msgs = []
  create_once : countCreate s.actions = 1
  no_remove : countRemove s.actions = 0

/-- Invariant after the job has been torn down (`job === null`). -/
structure DoneInv (N : Nat) (s : BgState) : Prop where
  npos : 0 < N
  phase_no : s.phase = Phase.noJob
  shape :
    (progressDones s.msgs = List.range' 1 N ∧
       completes s.msgs = [(N, N, "All videos processed.")]) ∨
    (progressDones s.msgs = [] ∧
       completes s.msgs = [(0, N, "Failed to create hidden tab.")])
  create_once : countCreate s.actions = 1
  remove_le : countRemove s.actions ≤ 1

/-- The lifecycle invariant of one submitted job over `N` targets. -/
def InvT (N : Nat) (s : BgState) : Prop :=
  match s.job with
  | some j => RunInv N s j
  | none => DoneInv N s

/-! ## Event schedules used in the liveness proofs -/

/-- Load the current target and fail injection: the shortest event sequence
that consumes one target from a `loading` state. -/
def drainBlock : List Ev := [Ev.tabLoaded, Ev.injectResult false]

/-- Load the current target, inject successfully, and let the per-video
timeout fire with the worker never answering. -/
def timeoutBlock : List Ev := [Ev.tabLoaded, Ev.injectResult true, Ev.timerFire]

/-- A full run over `n` targets in which every worker stays silent and
every target is settled by its timeout. -/
def allTimeoutEvents (n : Nat) : List Ev :=
  Ev.tabCreated (some 0) :: List.flatten (List.replicate n timeoutBlock)

/-! ## Concrete scenarios -/

/-- A `Clear` job over three distinct video URLs. -/
def clear3Payload : Payload :=
  { videoUrls := ["https://rumble.com/v1", "https://rumble.com/v2", "https://rumble.com/v3"],
    clearAll := true }

/-- Targets 1 and 3 succeed; target 2's worker never responds and its
timeout fires. -/
def clear3Events : List Ev :=
  [Ev.tabCreated (some 7), Ev.tabLoaded, Ev.injectResult true, Ev.workerResult true none,
   Ev.tabLoaded, Ev.injectResult true, Ev.timerFire,
   Ev.tabLoaded, Ev.injectResult true, Ev.workerResult true none]

/-- A `Set` job submitting the same URL twice. -/
def dupPayload : Payload :=
  { playlistIds := ["p1"], videoUrls := ["https://x/v1", "https://x/v1"] }

/-- A `Clear` job over two distinct video URLs. -/
def twoPayload : Payload :=
  { videoUrls := ["https://rumble.com/v1", "https://rumble.com/v2"], clearAll := true }

/-- Both targets of `twoPayload` succeed. -/
def twoEvents : List Ev :=
  [Ev.tabCreated (some 7), Ev.tabLoaded, Ev.injectResult true, Ev.workerResult true none,
   Ev.tabLoaded, Ev.injectResult true, Ev.workerResult true none]

/-- The state of the `twoPayload` job right after its hidden tab (id 7) was
created: the job is loading its first target. -/
def c9State : BgState := run (startJob initState twoPayload) [Ev.tabCreated (some 7)]

/-! ## The global `chrome.tabs.onRemoved` listener

The background worker's only reaction to a tab being closed externally is
this listener: it deletes the first pending-scrape / pending-raid /
pending-playlist-update entry whose `tabId` matches, calls any
scrape/raid resolver registered for that tab with `[]` and deletes it, and
resets the bulk-scan state if the bulk tab closed.  It never touches the
`DirectVideoApplyJob` state. -/

/-- The registries the listener cleans.  Map-like objects are modelled as
association lists keyed as in the source; the resolver maps (which hold
functions) are modelled by the set of tab ids holding a resolver. -/
structure Registries where
  pendingScrapes : List (String × Nat)
  pendingRaidCommands : List (String × Nat)
  pendingPlaylistUpdates : List (String × Nat)
  playlistScrapeResolvers : List Nat
  raidTargetResolvers : List Nat
  currentBulkTabId : Option Nat
  pendingBulkJobs : List String
  bulkScriptInjected : Bool
  deriving DecidableEq

/-- `Object.keys(obj).find(k => obj[k].tabId === tabId)` + `delete`:
removes the first entry whose value's `tabId` matches. -/
def deleteFirstByTab (l : List (String × Nat)) (t : Nat) : List (String × Nat) :=
  l.eraseP (fun kv => kv.2 == t)

/-- The `chrome.tabs.onRemoved` listener over the registries.  The second
component collects the values passed to the resolvers it invoked (always
`[]`), in invocation order. -/
def onTabRemovedGlobals (g : Registries) (t : Nat) : Registries × List (List String) :=
  let g := { g with
    pendingScrapes := deleteFirstByTab g.pendingScrapes t
    pendingRaidCommands := deleteFirstByTab g.pendingRaidCommands t
    pendingPlaylistUpdates := deleteFirstByTab g.pendingPlaylistUpdates t }
  let (g, calls) :=
    if t ∈ g.playlistScrapeResolvers then
      ({ g with playlistScrapeResolvers := g.playlistScrapeResolvers.filter (fun x => x ≠ t) },
       [([] : List String)])
    else (g, [])
  let (g, calls) :=
    if t ∈ g.raidTargetResolvers then
      ({ g with raidTargetResolvers := g.raidTargetResolvers.filter (fun x => x ≠ t) },
       calls ++ [([] : List String)])
    else (g, calls)
  let g :=
    if g.currentBulkTabId = some t then
      { g with currentBulkTabId := none, pendingBulkJobs := [], bulkScriptInjected := false }
    else g
  (g, calls)

/-! ## The `videoWorkerRun` handler (`playlist-automator.js`)

The handler's DOM interactions (opening the save-to-playlist overlay,
checking/unchecking entries, confirming/closing it) run against the live
page; their outcomes are inputs of the model.  The decision logic — which
`videoWorkerResult` message is sent back — is embedded exactly. -/

/-- The `videoWorkerRun` payload. -/
structure VWPayload where
  playlistIds : List String := []
  playlistNames : List String := []
  clearAll : Bool := false
  deriving DecidableEq

/-- Outcomes of the handler's DOM interactions on the video page:
whether `openSaveOverlayFromVideoPage` succeeded (and its failure reason),
the `ensurePlaylistsChecked` result lists for the `Set` branch, and whether
`confirmAndCloseOverlay` reported success. -/
structure OverlayEnv where
  overlayOk : Bool
  overlayReason : String
  checked : List String
  skipped : List String
  missing : List String
  confirmed : Bool
  deriving DecidableEq

/-- The `videoWorkerResult` message sent back to the background worker,
projected to its `ok` and `reason` fields. -/
structure VWResult where
  ok : Bool
  reason : Option String
  deriving DecidableEq

/-- `uniq((playlistNames || []).map(s => (s || '').trim()).filter(Boolean))`. -/
def vwNamesRaw (p : VWPayload) : List String :=
  jsDedup ((p.playlistNames.map jsTrim).filter (fun s => s ≠ ""))

/-- `uniq((playlistIds || []).map(String).map(s => s.trim()).filter(Boolean))`. -/
def vwIdsRaw (p : VWPayload) : List String :=
  jsDedup ((p.playlistIds.map jsTrim).filter (fun s => s ≠ ""))

/-- The effective playlist id list: the supplied ids, or — when none were
supplied but names were — the ids resolved from the names against the
stored playlist directory. -/
def effectiveIds (p : VWPayload) (storage : List StoredPlaylist) : List String :=
  let namesRaw := vwNamesRaw p
  let ids := vwIdsRaw p
  if ids.isEmpty && !namesRaw.isEmpty then resolveIdsFromNames namesRaw storage else ids

/-- The `videoWorkerRun` handler: open the overlay (reporting its failure
reason on failure), clear all checkboxes or ensure the requested playlists
are checked, confirm/close the overlay, and send exactly one
`videoWorkerResult`. -/
def videoWorkerRun (p : VWPayload) (storage : List StoredPlaylist) (env : OverlayEnv) :
    VWResult :=
  let namesRaw := vwNamesRaw p
  let ids := effectiveIds p storage
  if !env.overlayOk then { ok := false, reason := some env.overlayReason }
  else
    let ok :=
      if p.clearAll then true
      else (env.checked.length + env.skipped.length > 0) || (ids.isEmpty && namesRaw.isEmpty)
    { ok := ok && env.confirmed
      reason :=
        if ok then
          (if env.confirmed then none
           else some "overlay did not confirm/close in time or post-verify failed")
        else some "no matching playlists found" }

/-- The playlist directory of the name-resolution scenario: one playlist
titled `My Favorites` with id `pl_1`. -/
def favDirectory : List StoredPlaylist :=
  [{ title := "My Favorites", id := some "pl_1", playlist_id := none, slug := none }]

/-- A submission with no targets and no playlists: rejected by `start()`. -/
def rejectedPayload : Payload := {}

/-- The job object built by an accepted `start(dupPayload)`. -/
def dupJob : Job :=
  { playlistIds := ["p1"], playlistNames := [], clearAll := false,
    perVideoTimeoutMs := 30000, queue := ["https://x/v1"], total := 1, done := 0,
    currentUrl := none, tabId := none, debugKeepTab := false,
    videoTimer := false, onWorkerMsg := false }

/-- Registries holding one pending scrape, one scrape resolver and the bulk
tab, all on tab 7. -/
def c9Registries : Registries :=
  { pendingScrapes := [("scrape-1", 7)], pendingRaidCommands := [],
    pendingPlaylistUpdates := [], playlistScrapeResolvers := [7],
    raidTargetResolvers := [], currentBulkTabId := some 7,
    pendingBulkJobs := ["job"], bulkScriptInjected := true }

/-- A `Clear` worker request. -/
def c10ClearPayload : VWPayload := { clearAll := true }

/-- A `Set` worker request naming one playlist. -/
def c10SetPayload : VWPayload := { playlistNames := ["ghost"] }

/-- The overlay opens but fails to confirm/close. -/
def c10EnvNoConfirm : OverlayEnv :=
  { overlayOk := true, overlayReason := "", checked := [], skipped := [],
    missing := [], confirmed := false }

/-- The overlay opens and confirms, but no requested playlist matched:
nothing was checked or skipped. -/
def c10EnvNoMatch : OverlayEnv :=
  { overlayOk := true, overlayReason := "", checked := [], skipped := [],
    missing := ["ghost"], confirmed := true }

theorem mem_jsDedupAux {b : String} :
    ∀ {seen l : List String}, b ∈ jsDedupAux seen l ↔ b ∈ l ∧ b ∉ seen := by
  intro seen l
  induction l generalizing seen with
  | nil => simp [jsDedupAux]
  | cons a l ih =>
    by_cases hmem : a ∈ seen
    · rw [jsDedupAux, if_pos hmem, ih]
      simp only [List.mem_cons]
      constructor
      · rintro ⟨hl, hs⟩
        exact ⟨Or.inr hl, hs⟩
      · rintro ⟨hal, hs⟩
        rcases hal with hba | hl
        · exact absurd (hba ▸ hmem) hs
        · exact ⟨hl, hs⟩
    · rw [jsDedupAux, if_neg hmem]
      by_cases hba : b = a
      · subst hba
        simp [hmem]
      · simp only [List.mem_cons, hba, false_or]
        rw [ih]
        simp [List.mem_cons, hba]

theorem mem_jsDedup {b : String} {l : List String} : b ∈ jsDedup l ↔ b ∈ l := by
  rw [jsDedup, mem_jsDedupAux]
  simp

theorem jsDedupAux_nodup : ∀ (seen l : List String), (jsDedupAux seen l).Nodup := by
  intro seen l
  induction l generalizing seen with
  | nil => simp [jsDedupAux]
  | cons a l ih =>
    by_cases hmem : a ∈ seen
    · rw [jsDedupAux, if_pos hmem]
      exact ih seen
    · rw [jsDedupAux, if_neg hmem]
      refine List.nodup_cons.2 ⟨?_, ih (a :: seen)⟩
      intro habs
      have := mem_jsDedupAux.1 habs
      simp at this

theorem jsDedup_nodup (l : List String) : (jsDedup l).Nodup := jsDedupAux_nodup [] l

theorem jsDedup_toFinset (l : List String) : (jsDedup l).toFinset = l.toFinset := by
  ext b
  simp [List.mem_toFinset, mem_jsDedup]

/-- The length of the deduplicated list is the number of distinct elements. -/
theorem jsDedup_length (l : List String) : (jsDedup l).length = l.toFinset.card := by
  rw [← jsDedup_toFinset, List.toFinset_card_of_nodup (jsDedup_nodup l)]

theorem invT_of_run {N : Nat} {s : BgState} {j : Job}
    (hjob : s.job = some j) (h : RunInv N s j) : InvT N s := by
  unfold InvT
  rw [hjob]
  exact h

theorem invT_of_done {N : Nat} {s : BgState}
    (hjob : s.job = none) (h : DoneInv N s) : InvT N s := by
  unfold InvT
  rw [hjob]
  exact h

theorem runInv_of_invT {N : Nat} {s : BgState} {j : Job}
    (hjob : s.job = some j) (h : InvT N s) : RunInv N s j := by
  unfold InvT at h
  rw [hjob] at h
  exact h

theorem doneInv_of_invT {N : Nat} {s : BgState}
    (hjob : s.job = none) (h : InvT N s) : DoneInv N s := by
  unfold InvT at h
  rw [hjob] at h
  exact h

/-! ### Log bookkeeping -/

theorem progressDones_append (l m : List RtMsg) :
    progressDones (l ++ m) = progressDones l ++ progressDones m := by
  simp [progressDones, List.filterMap_append]

theorem progressNotes_append (l m : List RtMsg) :
    progressNotes (l ++ m) = progressNotes l ++ progressNotes m := by
  simp [progressNotes, List.filterMap_append]

theorem completes_append (l m : List RtMsg) :
    completes (l ++ m) = completes l ++ completes m := by
  simp [completes, List.filterMap_append]

theorem countCreate_append (l m : List TabAction) :
    countCreate (l ++ m) = countCreate l + countCreate m := by
  simp [countCreate, List.filter_append]

theorem countRemove_append (l m : List TabAction) :
    countRemove (l ++ m) = countRemove l + countRemove m := by
  simp [countRemove, List.filter_append]

theorem run_append (s : BgState) (l m : List Ev) :
    run s (l ++ m) = run (run s l) m := by
  simp [run, List.foldl_append]

theorem run_cons (s : BgState) (e : Ev) (l : List Ev) :
    run s (e :: l) = run (step s e) l := rfl

theorem step_noJob {s : BgState} (h : s.job = none) (e : Ev) : step s e = s := by
  cases e <;>
    simp [step, onTabCreated, onTabLoaded, onInjectResult, onTimerFire, onWorkerResult, h]

theorem run_noJob {s : BgState} (h : s.job = none) (evs : List Ev) : run s evs = s := by
  induction evs with
  | nil => rfl
  | cons e l ih => rw [run_cons, step_noJob h]; exact ih

/-! ### The terminal step for one target, in explicit form -/

theorem finishTarget_eq_nil {s : BgState} {j : Job} {t : Nat} {u note : String}
    (hq : j.queue = []) (ht : j.tabId = some t) (hcu : j.currentUrl = some u) :
    finishTarget s j note =
      { job := none, phase := Phase.noJob,
        msgs := s.msgs ++ [RtMsg.progress (j.done + 1) j.total (some u) note,
                           RtMsg.complete (j.done + 1) j.total "All videos processed."],
        actions := s.actions ++
          (if j.debugKeepTab then [] else [TabAction.remove t]) } := by
  cases hdb : j.debugKeepTab <;>
    simp [finishTarget, next, sendMsg, act, cleanup, hq, ht, hcu, hdb]

theorem finishTarget_eq_cons {s : BgState} {j : Job} {t : Nat} {u note u' : String}
    {rest : List String}
    (hq : j.queue = u' :: rest) (ht : j.tabId = some t) (hcu : j.currentUrl = some u) :
    finishTarget s j note =
      { job := some { j with videoTimer := false, done := j.done + 1,
                             currentUrl := some u', queue := rest },
        phase := Phase.loading,
        msgs := s.msgs ++ [RtMsg.progress (j.done + 1) j.total (some u) note],
        actions := s.actions ++ [TabAction.update t u'] } := by
  simp [finishTarget, next, sendMsg, act, hq, ht, hcu]

/-- Processing the terminal outcome of one target either completes the job
(empty queue) or advances it to loading the next target; either way the
invariant is preserved, exactly one progress message with the given note is
appended, and — on completion — the single `playlist-apply-complete`
message carries `successCount = total = N`. -/
theorem finishTarget_cases {N : Nat} {s : BgState} {j : Job}
    (_hjob : s.job = some j) (hinv : RunInv N s j)
    (hph : s.phase ≠ Phase.creating) (note : String) :
    ((finishTarget s j note).job = none ∧ InvT N (finishTarget s j note) ∧
       j.queue = [] ∧
       completes (finishTarget s j note).msgs = [(N, N, "All videos processed.")] ∧
       progressDones (finishTarget s j note).msgs = List.range' 1 N ∧
       progressNotes (finishTarget s j note).msgs = progressNotes s.msgs ++ [note]) ∨
    (∃ j', (finishTarget s j note).job = some j' ∧
       (finishTarget s j note).phase = Phase.loading ∧
       RunInv N (finishTarget s j note) j' ∧
       j'.queue = j.queue.tail ∧ j.queue ≠ [] ∧ j'.tabId = j.tabId ∧
       j'.clearAll = j.clearAll ∧ j'.done = j.done + 1 ∧
       progressNotes (finishTarget s j note).msgs = progressNotes s.msgs ++ [note]) := by
  obtain ⟨htS, hcuS, hw⟩ := hinv.post_create hph
  obtain ⟨t, ht⟩ := Option.isSome_iff_exists.mp htS
  obtain ⟨u, hcu⟩ := Option.isSome_iff_exists.mp hcuS
  have hcount := hinv.counting
  rw [hcu] at hcount
  simp only [Option.isSome_some, if_pos] at hcount
  cases hq : j.queue with
  | nil =>
    left
    have hdone : j.done + 1 = N := by rw [hq] at hcount; simpa using hcount
    rw [finishTarget_eq_nil hq ht hcu]
    refine ⟨rfl, ?_, rfl, ?_, ?_, ?_⟩
    · refine invT_of_done rfl ?_
      refine ⟨hinv.npos, rfl, Or.inl ⟨?_, ?_⟩, ?_, ?_⟩
      · simp only [progressDones_append, hinv.dones, hinv.total_eq]
        rw [← hdone]
        simp [progressDones, List.range'_concat, Nat.add_comm]
      · simp only [completes_append, hinv.no_complete, hinv.total_eq]
        simp [completes, hdone]
      · have h0 : countCreate (if j.debugKeepTab then [] else [TabAction.remove t]) = 0 := by
          cases j.debugKeepTab <;> simp [countCreate, isCreate]
        simp only [countCreate_append, hinv.create_once, h0]
      · have h0 : countRemove (if j.debugKeepTab then [] else [TabAction.remove t]) ≤ 1 := by
          cases j.debugKeepTab <;> simp [countRemove, isRemove]
        simp only [countRemove_append, hinv.no_remove]
        simpa using h0
    · simp only [completes_append, hinv.no_complete, hinv.total_eq]
      simp [completes, hdone]
    · simp only [progressDones_append, hinv.dones, hinv.total_eq]
      rw [← hdone]
      simp [progressDones, List.range'_concat, Nat.add_comm]
    · simp [progressNotes_append, progressNotes]
  | cons u' rest =>
    right
    rw [finishTarget_eq_cons hq ht hcu]
    refine ⟨_, rfl, rfl, ?_, by simp [hq], by simp [hq], rfl, rfl, rfl,
      by simp [progressNotes_append, progressNotes]⟩
    have hcount' : j.done + 1 + rest.length + 1 = N := by
      rw [hq] at hcount; simp at hcount; omega
    refine ⟨hinv.total_eq, hinv.npos, by simpa using hcount', by simp, by simp, ?_, by simp, ?_, ?_, ?_, ?_⟩
    · intro _
      exact ⟨by simp [ht], by simp, hw⟩
    · simp only [progressDones_append, hinv.dones]
      simp [progressDones, List.range'_concat, Nat.add_comm]
    · simp only [completes_append, hinv.no_complete]
      simp [completes]
    · have h0 : countCreate [TabAction.update t u'] = 0 := by simp [countCreate, isCreate]
      simp only [countCreate_append, hinv.create_once, h0]
    · have h0 : countRemove [TabAction.update t u'] = 0 := by simp [countRemove, isRemove]
      simp only [countRemove_append, hinv.no_remove, h0]

theorem invT_finishTarget {N : Nat} {s : BgState} {j : Job}
    (hjob : s.job = some j) (hinv : RunInv N s j)
    (hph : s.phase ≠ Phase.creating) (note : String) :
    InvT N (finishTarget s j note) := by
  rcases finishTarget_cases hjob hinv hph note with ⟨_, h, _⟩ | ⟨j', hj, _, hr, _⟩
  · exact h
  · exact invT_of_run hj hr

/-! ### Preservation of the invariant by every event -/

theorem invT_step {N : Nat} {s : BgState} (hinv : InvT N s) (e : Ev) :
    InvT N (step s e) := by
  cases hjob : s.job with
  | none => rw [step_noJob hjob]; exact hinv
  | some j =>
    have hr : RunInv N s j := runInv_of_invT hjob hinv
    cases e with
    | tabCreated tab =>
      simp only [step, onTabCreated, hjob]
      by_cases hph : s.phase = Phase.creating
      · rw [if_pos hph]
        obtain ⟨htid, hcu, hdone, _⟩ := hr.creating_char hph
        cases tab with
        | none =>
          have heq :
              cleanup (sendMsg s (RtMsg.complete 0 j.total "Failed to create hidden tab.")) =
                { job := none, phase := Phase.noJob,
                  msgs := s.msgs ++ [RtMsg.complete 0 j.total "Failed to create hidden tab."],
                  actions := s.actions } := by
            cases hdb : j.debugKeepTab <;> simp [cleanup, sendMsg, hjob, htid, hdb]
          rw [heq]
          refine invT_of_done rfl ?_
          refine ⟨hr.npos, rfl, Or.inr ⟨?_, ?_⟩, hr.create_once, ?_⟩
          · simp only [progressDones_append, hr.dones, hdone]
            simp [progressDones, List.range']
          · simp only [completes_append, hr.no_complete, hr.total_eq]
            simp [completes]
          · simp [hr.no_remove]
        | some t =>
          have hq : j.queue ≠ [] := by
            intro habs
            have hc := hr.counting
            have hnp := hr.npos
            rw [habs, hcu] at hc
            simp at hc
            omega
          cases hqe : j.queue with
          | nil => exact absurd hqe hq
          | cons u rest =>
            refine invT_of_run rfl ?_
            have hcnt := hr.counting
            rw [hcu, hqe] at hcnt
            simp at hcnt
            refine ⟨hr.total_eq, hr.npos, ?_, by simp, by simp, ?_, ?_, hr.dones, hr.no_complete,
              hr.create_once, hr.no_remove⟩
            · simp [hqe, hdone]
              omega
            · intro _
              simp [hqe]
            · have hvt : j.videoTimer = false := by
                cases hv : j.videoTimer
                · rfl
                · exact absurd (hr.timer_iff.mp hv) (by rw [hph]; simp)
              simp [hvt]
      · rw [if_neg hph]
        exact hinv
    | tabLoaded =>
      simp only [step, onTabLoaded, hjob]
      by_cases hph : s.phase = Phase.loading
      · rw [if_pos hph]
        obtain ⟨htS, hcuS, hwm⟩ := hr.post_create (by rw [hph]; simp)
        obtain ⟨t, ht⟩ := Option.isSome_iff_exists.mp htS
        rw [ht]
        refine invT_of_run (j := j) (by simp [act, hjob]) ?_
        have hvt : j.videoTimer = false := by
          cases hv : j.videoTimer
          · rfl
          · exact absurd (hr.timer_iff.mp hv) (by rw [hph]; simp)
        have h0c : countCreate [TabAction.executeScript t] = 0 := by
          simp [countCreate, isCreate]
        have h0r : countRemove [TabAction.executeScript t] = 0 := by
          simp [countRemove, isRemove]
        refine ⟨hr.total_eq, hr.npos, hr.counting, by simp, by simp [act], ?_, ?_, ?_, ?_, ?_, ?_⟩
        · intro _
          exact ⟨htS, hcuS, hwm⟩
        · simp [act, hvt]
        · simpa [act] using hr.dones
        · simpa [act] using hr.no_complete
        · simp [act, countCreate_append, hr.create_once, h0c]
        · simp [act, countRemove_append, hr.no_remove, h0r]
      · rw [if_neg hph]
        exact hinv
    | injectResult ok =>
      simp only [step, onInjectResult, hjob]
      by_cases hph : s.phase = Phase.injecting
      · rw [if_pos hph]
        cases ok with
        | false =>
          simp only [Bool.not_false, if_pos]
          exact invT_finishTarget hjob hr (by rw [hph]; simp) _
        | true =>
          simp only [Bool.not_true]
          rw [if_neg (by simp)]
          obtain ⟨htS, hcuS, hwm⟩ := hr.post_create (by rw [hph]; simp)
          obtain ⟨t, ht⟩ := Option.isSome_iff_exists.mp htS
          rw [ht]
          refine invT_of_run rfl ?_
          have h0c : countCreate [TabAction.sendWorkerRun t] = 0 := by
            simp [countCreate, isCreate]
          have h0r : countRemove [TabAction.sendWorkerRun t] = 0 := by
            simp [countRemove, isRemove]
          refine ⟨hr.total_eq, hr.npos, hr.counting, by simp, by simp [act], ?_, by simp [act], ?_, ?_, ?_, ?_⟩
          · intro _
            exact ⟨by simp [ht], hcuS, hwm⟩
          · simpa [act] using hr.dones
          · simpa [act] using hr.no_complete
          · simp [act, countCreate_append, hr.create_once, h0c]
          · simp [act, countRemove_append, hr.no_remove, h0r]
      · rw [if_neg hph]
        exact hinv
    | timerFire =>
      simp only [step, onTimerFire, hjob]
      cases hvt : j.videoTimer with
      | false => simp; exact hinv
      | true =>
        simp only [if_pos rfl]
        have hph := hr.timer_iff.mp hvt
        exact invT_finishTarget hjob hr (by rw [hph]; simp) _
    | workerResult ok r =>
      simp only [step, onWorkerResult, hjob]
      by_cases hph : s.phase = Phase.awaitingWorker ∧ j.onWorkerMsg = true
      · rw [if_pos hph]
        exact invT_finishTarget hjob hr (by rw [hph.1]; simp) _
      · rw [if_neg hph]
        exact hinv
    | tabRemoved t =>
      exact hinv

theorem invT_run {N : Nat} {s : BgState} (hinv : InvT N s) (evs : List Ev) :
    InvT N (run s evs) := by
  induction evs generalizing s with
  | nil => exact hinv
  | cons e l ih => exact ih (invT_step hinv e)

/-! ### The invariant holds at an accepted `start()` -/

theorem startJob_accepted_eq (p : Payload) (h : startRejected p = false) :
    startJob initState p =
      { job := some (initialJob p)
        phase := Phase.creating
        msgs := [RtMsg.started (normalizeUrls p.videoUrls).length
                  (if p.clearAll then "clear" else "set")]
        actions := [TabAction.create ((normalizeUrls p.videoUrls).head?.getD "")] } := by
  simp [startJob, cleanup, initState, sendMsg, act, h, initialJob]

theorem invT_start (p : Payload) (h : startRejected p = false) :
    InvT (normalizeUrls p.videoUrls).length (startJob initState p) := by
  have hne : ¬ (normalizeUrls p.videoUrls).isEmpty = true := by
    intro habs
    simp [startRejected, habs] at h
  have hpos : 0 < (normalizeUrls p.videoUrls).length := by
    cases hu : normalizeUrls p.videoUrls with
    | nil => rw [hu] at hne; simp at hne
    | cons a l => simp [hu]
  rw [startJob_accepted_eq p h]
  refine invT_of_run rfl ?_
  refine ⟨rfl, hpos, by simp [initialJob], by simp, ?_, ?_, by simp [initialJob], ?_, ?_, ?_, ?_⟩
  · intro _
    exact ⟨rfl, rfl, rfl, rfl⟩
  · intro habs
    simp at habs
  · simp [progressDones, List.range']
  · simp [completes]
  · simp [countCreate, isCreate]
  · simp [countRemove, isRemove]

/-! ### Single-step shapes used by the schedules -/

theorem step_tabCreated_some {s : BgState} {j : Job} {t : Nat}
    (hjob : s.job = some j) (hph : s.phase = Phase.creating) :
    step s (Ev.tabCreated (some t)) =
      { s with
        job := some { j with tabId := some t, onWorkerMsg := true,
                             currentUrl := j.queue.head?, queue := j.queue.tail }
        phase := Phase.loading } := by
  simp [step, onTabCreated, hjob, hph]

theorem step_tabLoaded_loading {s : BgState} {j : Job} {t : Nat}
    (hjob : s.job = some j) (hph : s.phase = Phase.loading) (ht : j.tabId = some t) :
    step s Ev.tabLoaded =
      { act s (TabAction.executeScript t) with phase := Phase.injecting } := by
  simp [step, onTabLoaded, hjob, hph, ht]

theorem step_injectFail_injecting {s : BgState} {j : Job}
    (hjob : s.job = some j) (hph : s.phase = Phase.injecting) :
    step s (Ev.injectResult false) = finishTarget s j "Inject failed; skipping." := by
  simp [step, onInjectResult, hjob, hph]

theorem step_injectOk_injecting {s : BgState} {j : Job} {t : Nat}
    (hjob : s.job = some j) (hph : s.phase = Phase.injecting) (ht : j.tabId = some t) :
    step s (Ev.injectResult true) =
      { act { s with job := some { j with videoTimer := true } }
          (TabAction.sendWorkerRun t) with phase := Phase.awaitingWorker } := by
  simp [step, onInjectResult, hjob, hph, ht]

theorem step_timerFire_armed {s : BgState} {j : Job}
    (hjob : s.job = some j) (hvt : j.videoTimer = true) :
    step s Ev.timerFire = finishTarget s j "Timeout; skipping." := by
  simp [step, onTimerFire, hjob, hvt]

theorem step_workerResult_awaiting {s : BgState} {j : Job} {ok : Bool} {r : Option String}
    (hjob : s.job = some j) (hph : s.phase = Phase.awaitingWorker)
    (hwm : j.onWorkerMsg = true) :
    step s (Ev.workerResult ok r) =
      finishTarget s j
        (if ok then (if j.clearAll then "Cleared" else "Updated")
         else "Skipped: " ++ r.getD "unknown") := by
  simp [step, onWorkerResult, hjob, hph, hwm]

/-! ### Draining a job to completion

From a `loading` state with `n` targets still queued, `n + 1` blocks settle
the in-flight target and every queued one, reaching teardown with the
single normal `playlist-apply-complete` message. -/

theorem drain_loading {N : Nat} :
    ∀ (n : Nat) (s : BgState) (j : Job), s.job = some j → s.phase = Phase.loading →
      RunInv N s j → j.queue.length = n →
      (run s (List.flatten (List.replicate (n + 1) drainBlock))).job = none ∧
      completes (run s (List.flatten (List.replicate (n + 1) drainBlock))).msgs
        = [(N, N, "All videos processed.")] ∧
      progressDones (run s (List.flatten (List.replicate (n + 1) drainBlock))).msgs
        = List.range' 1 N := by
  intro n
  induction n with
  | zero =>
    intro s j hjob hph hinv hlen
    have hq : j.queue = [] := List.length_eq_zero.mp hlen
    obtain ⟨htS, _, _⟩ := hinv.post_create (by rw [hph]; simp)
    obtain ⟨t, ht⟩ := Option.isSome_iff_exists.mp htS
    have h1 := step_tabLoaded_loading hjob hph ht
    have hjob1 : (step s Ev.tabLoaded).job = some j := by rw [h1]; simpa [act] using hjob
    have hph1 : (step s Ev.tabLoaded).phase = Phase.injecting := by rw [h1]
    have hrun1 : RunInv N (step s Ev.tabLoaded) j :=
      runInv_of_invT hjob1 (invT_step (invT_of_run hjob hinv) Ev.tabLoaded)
    have hq1 : j.queue = [] := hq
    have hflat : List.flatten (List.replicate (0 + 1) drainBlock) = drainBlock := by
      simp
    rw [hflat]
    have hrun2 : run s drainBlock
        = finishTarget (step s Ev.tabLoaded) j "Inject failed; skipping." := by
      show step (step s Ev.tabLoaded) (Ev.injectResult false) = _
      exact step_injectFail_injecting hjob1 hph1
    rw [hrun2]
    rcases finishTarget_cases hjob1 hrun1 (by rw [hph1]; simp) "Inject failed; skipping."
      with ⟨hnone, _, _, hcom, hdon, _⟩ | ⟨j', _, _, _, _, hne, _⟩
    · exact ⟨hnone, hcom, hdon⟩
    · exact absurd hq1 hne
  | succ n ih =>
    intro s j hjob hph hinv hlen
    cases hqe : j.queue with
    | nil => rw [hqe] at hlen; simp at hlen
    | cons u rest =>
      have hrest : rest.length = n := by rw [hqe] at hlen; simpa using hlen
      obtain ⟨htS, _, _⟩ := hinv.post_create (by rw [hph]; simp)
      obtain ⟨t, ht⟩ := Option.isSome_iff_exists.mp htS
      have h1 := step_tabLoaded_loading hjob hph ht
      have hjob1 : (step s Ev.tabLoaded).job = some j := by rw [h1]; simpa [act] using hjob
      have hph1 : (step s Ev.tabLoaded).phase = Phase.injecting := by rw [h1]
      have hrun1 : RunInv N (step s Ev.tabLoaded) j :=
        runInv_of_invT hjob1 (invT_step (invT_of_run hjob hinv) Ev.tabLoaded)
      have hsplit : List.flatten (List.replicate (n + 1 + 1) drainBlock)
          = drainBlock ++ List.flatten (List.replicate (n + 1) drainBlock) := by
        simp [List.replicate_succ]
      rw [hsplit, run_append]
      have hrun2 : run s drainBlock
          = finishTarget (step s Ev.tabLoaded) j "Inject failed; skipping." := by
        show step (step s Ev.tabLoaded) (Ev.injectResult false) = _
        exact step_injectFail_injecting hjob1 hph1
      rw [hrun2]
      rcases finishTarget_cases hjob1 hrun1 (by rw [hph1]; simp) "Inject failed; skipping."
        with ⟨_, _, hq', _⟩ | ⟨j', hj', hphl, hrun', hq', _, _, _, _, _⟩
      · rw [hq'] at hqe; cases hqe
      · exact ih _ j' hj' hphl hrun' (by rw [hq', hqe]; simpa using hrest)

/-- The all-timeout drain: same schedule shape, but each target is settled
by its armed timeout, and each settles with the note `Timeout; skipping.`. -/
theorem timeout_drain {N : Nat} :
    ∀ (n : Nat) (s : BgState) (j : Job), s.job = some j → s.phase = Phase.loading →
      RunInv N s j → j.queue.length = n →
      (run s (List.flatten (List.replicate (n + 1) timeoutBlock))).job = none ∧
      completes (run s (List.flatten (List.replicate (n + 1) timeoutBlock))).msgs
        = [(N, N, "All videos processed.")] ∧
      progressDones (run s (List.flatten (List.replicate (n + 1) timeoutBlock))).msgs
        = List.range' 1 N ∧
      progressNotes (run s (List.flatten (List.replicate (n + 1) timeoutBlock))).msgs
        = progressNotes s.msgs ++ List.replicate (n + 1) "Timeout; skipping." := by
  intro n
  induction n with
  | zero =>
    intro s j hjob hph hinv hlen
    have hq : j.queue = [] := List.length_eq_zero.mp hlen
    obtain ⟨htS, _, _⟩ := hinv.post_create (by rw [hph]; simp)
    obtain ⟨t, ht⟩ := Option.isSome_iff_exists.mp htS
    have h1 := step_tabLoaded_loading hjob hph ht
    have hjob1 : (step s Ev.tabLoaded).job = some j := by rw [h1]; simpa [act] using hjob
    have hph1 : (step s Ev.tabLoaded).phase = Phase.injecting := by rw [h1]
    have h2 := step_injectOk_injecting hjob1 hph1 ht
    have hjob2 : (step (step s Ev.tabLoaded) (Ev.injectResult true)).job
        = some { j with videoTimer := true } := by rw [h2]; simp [act]
    have hrun2 : RunInv N (step (step s Ev.tabLoaded) (Ev.injectResult true))
        { j with videoTimer := true } :=
      runInv_of_invT hjob2
        (invT_step (invT_step (invT_of_run hjob hinv) Ev.tabLoaded) (Ev.injectResult true))
    have hmsgs2 : (step (step s Ev.tabLoaded) (Ev.injectResult true)).msgs = s.msgs := by
      rw [h2, h1]; simp [act]
    have hflat : List.flatten (List.replicate (0 + 1) timeoutBlock) = timeoutBlock := by
      simp
    rw [hflat]
    have hrun3 : run s timeoutBlock
        = finishTarget (step (step s Ev.tabLoaded) (Ev.injectResult true))
            { j with videoTimer := true } "Timeout; skipping." := by
      show step (step (step s Ev.tabLoaded) (Ev.injectResult true)) Ev.timerFire = _
      exact step_timerFire_armed hjob2 rfl
    rw [hrun3]
    rcases finishTarget_cases hjob2 hrun2
        (by
          have : (step (step s Ev.tabLoaded) (Ev.injectResult true)).phase
              = Phase.awaitingWorker := by rw [h2]
          rw [this]; simp)
        "Timeout; skipping."
      with ⟨hnone, _, _, hcom, hdon, hnot⟩ | ⟨j', _, _, _, _, hne, _⟩
    · refine ⟨hnone, hcom, hdon, ?_⟩
      rw [hnot, hmsgs2]
      simp
    · exact absurd hq (by simpa using hne)
  | succ n ih =>
    intro s j hjob hph hinv hlen
    cases hqe : j.queue with
    | nil => rw [hqe] at hlen; simp at hlen
    | cons u rest =>
      have hrest : rest.length = n := by rw [hqe] at hlen; simpa using hlen
      obtain ⟨htS, _, _⟩ := hinv.post_create (by rw [hph]; simp)
      obtain ⟨t, ht⟩ := Option.isSome_iff_exists.mp htS
      have h1 := step_tabLoaded_loading hjob hph ht
      have hjob1 : (step s Ev.tabLoaded).job = some j := by rw [h1]; simpa [act] using hjob
      have hph1 : (step s Ev.tabLoaded).phase = Phase.injecting := by rw [h1]
      have h2 := step_injectOk_injecting hjob1 hph1 ht
      have hjob2 : (step (step s Ev.tabLoaded) (Ev.injectResult true)).job
          = some { j with videoTimer := true } := by rw [h2]; simp [act]
      have hrun2 : RunInv N (step (step s Ev.tabLoaded) (Ev.injectResult true))
          { j with videoTimer := true } :=
        runInv_of_invT hjob2
          (invT_step (invT_step (invT_of_run hjob hinv) Ev.tabLoaded) (Ev.injectResult true))
      have hmsgs2 : (step (step s Ev.tabLoaded) (Ev.injectResult true)).msgs = s.msgs := by
        rw [h2, h1]; simp [act]
      have hsplit : List.flatten (List.replicate (n + 1 + 1) timeoutBlock)
          = timeoutBlock ++ List.flatten (List.replicate (n + 1) timeoutBlock) := by
        simp [List.replicate_succ]
      rw [hsplit, run_append]
      have hrun3 : run s timeoutBlock
          = finishTarget (step (step s Ev.tabLoaded) (Ev.injectResult true))
              { j with videoTimer := true } "Timeout; skipping." := by
        show step (step (step s Ev.tabLoaded) (Ev.injectResult true)) Ev.timerFire = _
        exact step_timerFire_armed hjob2 rfl
      rw [hrun3]
      rcases finishTarget_cases hjob2 hrun2
          (by
            have : (step (step s Ev.tabLoaded) (Ev.injectResult true)).phase
                = Phase.awaitingWorker := by rw [h2]
            rw [this]; simp)
          "Timeout; skipping."
        with ⟨_, _, hq', _⟩ | ⟨j', hj', hphl, hrun', hq', _, _, _, _, hnot⟩
      · simp [hqe] at hq'
      · obtain ⟨hfin1, hfin2, hfin3, hfin4⟩ :=
          ih _ j' hj' hphl hrun' (by rw [hq']; simp [hqe, hrest])
        refine ⟨hfin1, hfin2, hfin3, ?_⟩
        rw [hfin4, hnot, hmsgs2]
        simp [List.replicate_succ]

/-- From any reachable state in which the job is still alive, some event
schedule completes it: teardown is reached, with the single normal
completion message and one progress message per target. -/
theorem completable {N : Nat} {s : BgState} {j : Job}
    (hjob : s.job = some j) (hinv : RunInv N s j) :
    ∃ evs, (run s evs).job = none ∧
      completes (run s evs).msgs = [(N, N, "All videos processed.")] ∧
      progressDones (run s evs).msgs = List.range' 1 N := by
  cases hph : s.phase with
  | noJob => exact absurd hph hinv.phase_run
  | creating =>
    obtain ⟨_, hcu, hdone, _⟩ := hinv.creating_char hph
    have hc := hinv.counting
    rw [hcu, hdone] at hc
    simp at hc
    have h1 := step_tabCreated_some (t := 0) hjob hph
    have hjob1 : (step s (Ev.tabCreated (some 0))).job
        = some { j with tabId := some 0, onWorkerMsg := true,
                        currentUrl := j.queue.head?, queue := j.queue.tail } := by
      rw [h1]
    have hph1 : (step s (Ev.tabCreated (some 0))).phase = Phase.loading := by rw [h1]
    have hrun1 := runInv_of_invT hjob1 (invT_step (invT_of_run hjob hinv) (Ev.tabCreated (some 0)))
    refine ⟨Ev.tabCreated (some 0)
        :: List.flatten (List.replicate ((N - 1) + 1) drainBlock), ?_⟩
    rw [run_cons]
    exact drain_loading (N - 1) _ _ hjob1 hph1 hrun1 (by simp [hc])
  | loading =>
    exact ⟨List.flatten (List.replicate (j.queue.length + 1) drainBlock),
      drain_loading j.queue.length s j hjob hph hinv rfl⟩
  | injecting =>
    have heq := step_injectFail_injecting hjob hph
    rcases finishTarget_cases hjob hinv (by rw [hph]; simp) "Inject failed; skipping."
      with ⟨hnone, _, _, hcom, hdon, _⟩ | ⟨j', hj', hphl, hrun', hq', _, _, _, _, _⟩
    · refine ⟨[Ev.injectResult false], ?_, ?_, ?_⟩ <;>
        · show _ = _
          rw [run_cons, heq]
          first
          | exact hnone
          | exact hcom
          | exact hdon
    · refine ⟨Ev.injectResult false
          :: List.flatten (List.replicate (j'.queue.length + 1) drainBlock), ?_⟩
      rw [run_cons, heq]
      exact drain_loading j'.queue.length _ _ hj' hphl hrun' rfl
  | awaitingWorker =>
    have hvt : j.videoTimer = true := hinv.timer_iff.mpr hph
    have heq := step_timerFire_armed hjob hvt
    rcases finishTarget_cases hjob hinv (by rw [hph]; simp) "Timeout; skipping."
      with ⟨hnone, _, _, hcom, hdon, _⟩ | ⟨j', hj', hphl, hrun', hq', _, _, _, _, _⟩
    · refine ⟨[Ev.timerFire], ?_, ?_, ?_⟩ <;>
        · show _ = _
          rw [run_cons, heq]
          first
          | exact hnone
          | exact hcom
          | exact hdon
    · refine ⟨Ev.timerFire
          :: List.flatten (List.replicate (j'.queue.length + 1) drainBlock), ?_⟩
      rw [run_cons, heq]
      exact drain_loading j'.queue.length _ _ hj' hphl hrun' rfl

/-! ### Projection helpers -/

theorem mem_completes {msgs : List RtMsg} {c t : Nat} {note : String}
    (h : RtMsg.complete c t note ∈ msgs) : (c, t, note) ∈ completes msgs := by
  simp only [completes, List.mem_filterMap]
  exact ⟨RtMsg.complete c t note, h, rfl⟩

theorem count_timerFire_allTimeout (n : Nat) :
    (allTimeoutEvents n).count Ev.timerFire = n := by
  have haux : ∀ m : Nat,
      (List.flatten (List.replicate m timeoutBlock)).count Ev.timerFire = m := by
    intro m
    induction m with
    | zero => simp
    | succ k ih =>
      rw [List.replicate_succ, List.flatten_cons, List.count_append, ih]
      simp [timeoutBlock, List.count_cons]
      omega
  rw [allTimeoutEvents, List.count_cons, haux]
  simp

theorem deleteFirstByTab_unique {l : List (String × Nat)} {t : Nat}
    (h : (l.map Prod.snd).Nodup) :
    ∀ kv ∈ deleteFirstByTab l t, kv.2 ≠ t := by
  induction l with
  | nil => simp [deleteFirstByTab]
  | cons a l ih =>
    rw [List.map_cons, List.nodup_cons] at h
    obtain ⟨ha, hl⟩ := h
    by_cases hat : a.2 = t
    · rw [deleteFirstByTab, List.eraseP_cons_of_pos (by simp [hat])]
      intro kv hkv habs
      exact ha (by
        rw [← hat, ← habs] at *
        exact List.mem_map_of_mem Prod.snd hkv)
    · rw [deleteFirstByTab, List.eraseP_cons_of_neg (by simp [hat])]
      intro kv hkv
      rcases List.mem_cons.mp hkv with hkv | hkv
      · rw [hkv]; exact hat
      · exact ih hl kv hkv

/-! ## The claims -/

/-- C3: `start()` fails fast when the normalised target queue is empty, or
when the operation is `Set` (`clearAll = false`) and no playlist identifier
was supplied: exactly one `playlist-apply-error` message is emitted, no job
is created, no tab is requested, and no `playlist-apply-started` message is
emitted; on an accepted submission, exactly one `playlist-apply-started`
message and no error is emitted and a job exists — `Error` and `Started`
are mutually exclusive. -/
theorem C3_start_fail_fast (p : Payload) :
    (startRejected p = true →
       (startJob initState p).msgs = [RtMsg.error "Missing videos or playlists."] ∧
       (startJob initState p).job = none ∧
       (startJob initState p).actions = []) ∧
    (startRejected p = false →
       (startJob initState p).msgs
         = [RtMsg.started (normalizeUrls p.videoUrls).length
             (if p.clearAll then "clear" else "set")] ∧
       (startJob initState p).job.isSome = true) := by
  constructor
  · intro h
    refine ⟨?_, ?_, ?_⟩ <;> simp [startJob, cleanup, initState, sendMsg, act, h]
  · intro h
    rw [startJob_accepted_eq p h]
    exact ⟨rfl, rfl⟩

theorem C3_witness :
    startRejected rejectedPayload = true ∧
    ((startJob initState rejectedPayload).msgs
       = [RtMsg.error "Missing videos or playlists."] ∧
     (startJob initState rejectedPayload).job = none ∧
     (startJob initState rejectedPayload).actions = []) :=
  ⟨by decide, (C3_start_fail_fast rejectedPayload).1 (by decide)⟩

/-- C7: at submission the target URLs are normalised (`toAbs` then
`stripParams`) and deduplicated; the job's queue is duplicate-free and its
`total` equals the number of distinct normalised targets.  Submitting the
same URL twice (`dupPayload`) yields `total = 1`. -/
theorem C7_normalize_dedup_total (p : Payload) :
    (∀ j, (startJob initState p).job = some j →
       j.queue = normalizeUrls p.videoUrls ∧ j.queue.Nodup ∧
       j.total = ((p.videoUrls.map toAbs).map stripParams).toFinset.card) ∧
    (startJob initState dupPayload).job.map Job.total = some 1 := by
  constructor
  · intro j hj
    cases h : startRejected p with
    | true =>
      rw [startJob, if_pos h] at hj
      simp [cleanup, initState, sendMsg] at hj
    | false =>
      rw [startJob_accepted_eq p h] at hj
      simp only [Option.some.injEq] at hj
      subst hj
      refine ⟨rfl, jsDedup_nodup _, ?_⟩
      exact jsDedup_length _
  · decide

theorem C7_witness :
    (startJob initState dupPayload).job = some dupJob ∧
    (dupJob.queue = normalizeUrls dupPayload.videoUrls ∧ dupJob.queue.Nodup ∧
     dupJob.total = ((dupPayload.videoUrls.map toAbs).map stripParams).toFinset.card) :=
  ⟨by decide, (C7_normalize_dedup_total dupPayload).1 dupJob (by decide)⟩

/-- C8: with a playlist directory mapping the title `My Favorites` to id
`pl_1`, resolving `playlistNames = ["my favorites"]` (and no ids) yields
exactly `["pl_1"]` — the lookup is case-insensitive (and trims
whitespace); the worker's effective id set for such a request is
`["pl_1"]`. -/
theorem C8_name_resolution :
    resolveIdsFromNames ["my favorites"] favDirectory = ["pl_1"] ∧
    resolveIdsFromNames ["  My FAVORITES "] favDirectory = ["pl_1"] ∧
    effectiveIds { playlistNames := ["my favorites"] } favDirectory = ["pl_1"] := by
  refine ⟨by decide, by decide, by decide⟩

/-- C1 counterexample: in the three-target `Clear` job whose second target
times out (`clear3Payload` / `clear3Events`), the progress notes record two
successes (`Cleared`) and one timeout, yet the single
`playlist-apply-complete` message carries `successCount = 3` — the
`successCount = 2` the claim predicts is not emitted.  `successCount` is
`job.done`, which counts failed targets too. -/
theorem C1_counterexample_successCount :
    completes (run (startJob initState clear3Payload) clear3Events).msgs
      = [(3, 3, "All videos processed.")] ∧
    progressNotes (run (startJob initState clear3Payload) clear3Events).msgs
      = ["Cleared", "Timeout; skipping.", "Cleared"] ∧
    completes (run (startJob initState clear3Payload) clear3Events).msgs
      ≠ [(2, 3, "All videos processed.")] := by
  refine ⟨by decide, by decide, by decide⟩

/-- C1 (amended): when a bulk job's queue empties, exactly one
`Complete{successCount, total}` event is emitted, but its `successCount` is
the number of consumed targets — timed-out and failed targets included —
so it always equals `total` and equals the number of `Progress` events
emitted. -/
theorem C1_complete_reports_processed_count (p : Payload) (evs : List Ev)
    (hacc : startRejected p = false) :
    (completes (run (startJob initState p) evs).msgs).length ≤ 1 ∧
    (∀ c t note,
       RtMsg.complete c t note ∈ (run (startJob initState p) evs).msgs →
       note = "All videos processed." →
       c = (normalizeUrls p.videoUrls).length ∧ t = c ∧
       c = (progressDones (run (startJob initState p) evs).msgs).length) := by
  have hI := invT_run (invT_start p hacc) evs
  cases hjob : (run (startJob initState p) evs).job with
  | some j =>
    have hr := runInv_of_invT hjob hI
    constructor
    · rw [hr.no_complete]
      simp
    · intro c t note hmem _
      have hmem' := mem_completes hmem
      rw [hr.no_complete] at hmem'
      simp at hmem'
  | none =>
    have hd := doneInv_of_invT hjob hI
    rcases hd.shape with ⟨hdon, hcom⟩ | ⟨hdon, hcom⟩
    · constructor
      · rw [hcom]
        simp
      · intro c t note hmem _
        have hmem' := mem_completes hmem
        rw [hcom] at hmem'
        simp at hmem'
        obtain ⟨hc, ht, -⟩ := hmem'
        subst hc
        subst ht
        refine ⟨rfl, rfl, ?_⟩
        rw [hdon]
        simp
    · constructor
      · rw [hcom]
        simp
      · intro c t note hmem hnote
        have hmem' := mem_completes hmem
        rw [hcom] at hmem'
        simp at hmem'
        rw [hnote] at hmem'
        exact absurd hmem'.2.2 (by decide)

theorem C1_witness :
    startRejected clear3Payload = false ∧
    (3 = (normalizeUrls clear3Payload.videoUrls).length ∧ 3 = 3 ∧
     3 = (progressDones (run (startJob initState clear3Payload) clear3Events).msgs).length) :=
  ⟨by decide,
    (C1_complete_reports_processed_count clear3Payload clear3Events (by decide)).2 3 3
      "All videos processed." (by decide) rfl⟩

/-- C2: for a bulk job over `N` deduplicated targets, a run that reaches the
normal completion message has emitted exactly `N` progress results — one
per consumed target, failures included — and from any state in which the
job is still alive, the queue can always be driven to completion (one
terminal result settles every remaining target): the queue never stalls. -/
theorem C2_exactly_one_result_per_target (p : Payload) (evs : List Ev)
    (hacc : startRejected p = false) :
    ((∃ c t, RtMsg.complete c t "All videos processed."
        ∈ (run (startJob initState p) evs).msgs) →
       (progressDones (run (startJob initState p) evs).msgs).length
         = (normalizeUrls p.videoUrls).length) ∧
    (∀ j, (run (startJob initState p) evs).job = some j →
       ∃ evs2,
         (run (run (startJob initState p) evs) evs2).job = none ∧
         completes (run (run (startJob initState p) evs) evs2).msgs
           = [((normalizeUrls p.videoUrls).length,
               (normalizeUrls p.videoUrls).length, "All videos processed.")] ∧
         (progressDones (run (run (startJob initState p) evs) evs2).msgs).length
           = (normalizeUrls p.videoUrls).length) := by
  have hI := invT_run (invT_start p hacc) evs
  constructor
  · rintro ⟨c, t, hmem⟩
    cases hjob : (run (startJob initState p) evs).job with
    | some j =>
      have hr := runInv_of_invT hjob hI
      have hmem' := mem_completes hmem
      rw [hr.no_complete] at hmem'
      simp at hmem'
    | none =>
      have hd := doneInv_of_invT hjob hI
      rcases hd.shape with ⟨hdon, _⟩ | ⟨_, hcom⟩
      · rw [hdon]
        simp
      · have hmem' := mem_completes hmem
        rw [hcom] at hmem'
        simp at hmem'
  · intro j hjob
    have hr := runInv_of_invT hjob hI
    obtain ⟨evs2, h1, h2, h3⟩ := completable hjob hr
    refine ⟨evs2, h1, h2, ?_⟩
    rw [h3]
    simp

theorem C2_witness :
    startRejected clear3Payload = false ∧
    (progressDones (run (startJob initState clear3Payload) clear3Events).msgs).length
      = (normalizeUrls clear3Payload.videoUrls).length :=
  ⟨by decide,
    (C2_exactly_one_result_per_target clear3Payload clear3Events (by decide)).1
      ⟨3, 3, by decide⟩⟩

/-- C4: within one job, the `done` values of the emitted `Progress` events
form exactly the sequence `1, 2, …, k` for some `k ≤ total` — one event per
consumed target, failures counted like successes — and in any run that
reaches the normal completion message, `k = total`. -/
theorem C4_progress_monotonicity (p : Payload) (evs : List Ev)
    (hacc : startRejected p = false) :
    ∃ k, k ≤ (normalizeUrls p.videoUrls).length ∧
      progressDones (run (startJob initState p) evs).msgs = List.range' 1 k ∧
      ((∃ c t, RtMsg.complete c t "All videos processed."
          ∈ (run (startJob initState p) evs).msgs) →
        k = (normalizeUrls p.videoUrls).length) := by
  have hI := invT_run (invT_start p hacc) evs
  cases hjob : (run (startJob initState p) evs).job with
  | some j =>
    have hr := runInv_of_invT hjob hI
    refine ⟨j.done, ?_, ?_, ?_⟩
    · have hc := hr.counting
      have := hr.total_eq
      by_cases hcu : j.currentUrl.isSome = true <;> simp [hcu] at hc <;> omega
    · exact hr.dones
    · rintro ⟨c, t, hmem⟩
      have hmem' := mem_completes hmem
      rw [hr.no_complete] at hmem'
      simp at hmem'
  | none =>
    have hd := doneInv_of_invT hjob hI
    rcases hd.shape with ⟨hdon, _⟩ | ⟨hdon, hcom⟩
    · exact ⟨_, le_refl _, hdon, fun _ => rfl⟩
    · refine ⟨0, Nat.zero_le _, by simpa using hdon, ?_⟩
      rintro ⟨c, t, hmem⟩
      have hmem' := mem_completes hmem
      rw [hcom] at hmem'
      simp at hmem'

theorem allTimeout_run_completes (p : Payload) (hacc : startRejected p = false) :
    (run (startJob initState p)
       (allTimeoutEvents (normalizeUrls p.videoUrls).length)).job = none ∧
    completes (run (startJob initState p)
       (allTimeoutEvents (normalizeUrls p.videoUrls).length)).msgs
      = [((normalizeUrls p.videoUrls).length, (normalizeUrls p.videoUrls).length,
          "All videos processed.")] ∧
    progressNotes (run (startJob initState p)
       (allTimeoutEvents (normalizeUrls p.videoUrls).length)).msgs
      = List.replicate (normalizeUrls p.videoUrls).length "Timeout; skipping." := by
  have hpos : 0 < (normalizeUrls p.videoUrls).length := by
    cases hu : normalizeUrls p.videoUrls with
    | nil =>
      exfalso
      rw [startRejected, hu] at hacc
      simp at hacc
    | cons a l => simp [hu]
  have heq0 := startJob_accepted_eq p hacc
  have hjob0 : (startJob initState p).job = some (initialJob p) := by rw [heq0]
  have hph0 : (startJob initState p).phase = Phase.creating := by rw [heq0]
  have h1 := step_tabCreated_some (t := 0) hjob0 hph0
  have hjob1 : (step (startJob initState p) (Ev.tabCreated (some 0))).job
      = some (startedJob p 0) := by
    rw [h1]
    rfl
  have hph1 : (step (startJob initState p) (Ev.tabCreated (some 0))).phase
      = Phase.loading := by
    rw [h1]
  have hrun1 := runInv_of_invT hjob1 (invT_step (invT_start p hacc) (Ev.tabCreated (some 0)))
  have hlen1 : (startedJob p 0).queue.length
      = (normalizeUrls p.videoUrls).length - 1 := by
    simp [startedJob, initialJob]
  obtain ⟨hf1, hf2, hf3, hf4⟩ :=
    timeout_drain ((normalizeUrls p.videoUrls).length - 1) _ _ hjob1 hph1 hrun1 hlen1
  have hsucc : (normalizeUrls p.videoUrls).length - 1 + 1
      = (normalizeUrls p.videoUrls).length := by omega
  rw [hsucc] at hf1 hf2 hf3 hf4
  have hmsgs1 : (step (startJob initState p) (Ev.tabCreated (some 0))).msgs
      = [RtMsg.started (normalizeUrls p.videoUrls).length
          (if p.clearAll then "clear" else "set")] := by
    rw [h1, heq0]
  have hsched : run (startJob initState p)
      (allTimeoutEvents (normalizeUrls p.videoUrls).length)
      = run (step (startJob initState p) (Ev.tabCreated (some 0)))
          (List.flatten (List.replicate (normalizeUrls p.videoUrls).length timeoutBlock)) := by
    rw [allTimeoutEvents, run_cons]
  rw [hsched]
  refine ⟨hf1, hf2, ?_⟩
  rw [hf4, hmsgs1]
  simp [progressNotes]

/-- C5: the per-video timeout is armed exactly when injection succeeds (the
state where the job waits on its worker always has the timer armed), and a
run in which no worker ever responds — every target is settled by its
timeout — still reaches the single normal `Complete` message after `total`
timer firings, i.e. within `total × perVideoTimeoutMs` of accumulated
timeout waiting; every progress note records the timeout. -/
theorem C5_timeout_forward_progress (p : Payload) (hacc : startRejected p = false) :
    (∀ (M : Nat) (s : BgState) (j : Job), InvT M s → s.job = some j →
       s.phase = Phase.injecting →
       ∀ j', (step s (Ev.injectResult true)).job = some j' → j'.videoTimer = true) ∧
    ((run (startJob initState p)
        (allTimeoutEvents (normalizeUrls p.videoUrls).length)).job = none ∧
     completes (run (startJob initState p)
        (allTimeoutEvents (normalizeUrls p.videoUrls).length)).msgs
       = [((normalizeUrls p.videoUrls).length, (normalizeUrls p.videoUrls).length,
           "All videos processed.")] ∧
     progressNotes (run (startJob initState p)
        (allTimeoutEvents (normalizeUrls p.videoUrls).length)).msgs
       = List.replicate (normalizeUrls p.videoUrls).length "Timeout; skipping." ∧
     (allTimeoutEvents (normalizeUrls p.videoUrls).length).count Ev.timerFire
         * p.perVideoTimeoutMs
       = (normalizeUrls p.videoUrls).length * p.perVideoTimeoutMs) := by
  constructor
  · intro M s j hinv hjob hph j' hj'
    have hr := runInv_of_invT hjob hinv
    obtain ⟨htS, _, _⟩ := hr.post_create (by rw [hph]; simp)
    obtain ⟨t, ht⟩ := Option.isSome_iff_exists.mp htS
    rw [step_injectOk_injecting hjob hph ht] at hj'
    simp [act] at hj'
    rw [← hj']
  · obtain ⟨h1, h2, h3⟩ := allTimeout_run_completes p hacc
    refine ⟨h1, h2, h3, ?_⟩
    rw [count_timerFire_allTimeout]

theorem C5_witness :
    startRejected clear3Payload = false ∧
    ((run (startJob initState clear3Payload)
        (allTimeoutEvents (normalizeUrls clear3Payload.videoUrls).length)).job = none ∧
     completes (run (startJob initState clear3Payload)
        (allTimeoutEvents (normalizeUrls clear3Payload.videoUrls).length)).msgs
       = [((normalizeUrls clear3Payload.videoUrls).length,
           (normalizeUrls clear3Payload.videoUrls).length, "All videos processed.")] ∧
     progressNotes (run (startJob initState clear3Payload)
        (allTimeoutEvents (normalizeUrls clear3Payload.videoUrls).length)).msgs
       = List.replicate (normalizeUrls clear3Payload.videoUrls).length
           "Timeout; skipping." ∧
     (allTimeoutEvents (normalizeUrls clear3Payload.videoUrls).length).count Ev.timerFire
         * clear3Payload.perVideoTimeoutMs
       = (normalizeUrls clear3Payload.videoUrls).length
           * clear3Payload.perVideoTimeoutMs) :=
  ⟨by decide, (C5_timeout_forward_progress clear3Payload (by decide)).2⟩

/-- C6 counterexample: in the two-target job `twoPayload` (trace
`twoEvents`), the hidden tab created for target 1 (id 7) is *reused* for
target 2 — the navigation `update 7 …/v2` acquires target 2's surface with
no preceding `remove` — and the single `remove 7` happens only at job
teardown, refuting "the surface used for target N is fully disposed before
the surface for target N+1 is acquired". -/
theorem C6_counterexample_tab_reuse :
    (run (startJob initState twoPayload) twoEvents).actions
      = [TabAction.create "https://rumble.com/v1", TabAction.executeScript 7,
         TabAction.sendWorkerRun 7, TabAction.update 7 "https://rumble.com/v2",
         TabAction.executeScript 7, TabAction.sendWorkerRun 7, TabAction.remove 7] ∧
    countRemove ((run (startJob initState twoPayload) twoEvents).actions.take 4) = 0 ∧
    completes (run (startJob initState twoPayload) twoEvents).msgs
      = [(2, 2, "All videos processed.")] := by
  refine ⟨by decide, by decide, by decide⟩

/-- C6 (amended): targets are processed strictly sequentially and the job
owns at most one hidden tab at any instant, but the tab is acquired once
(`tabs.create`), reused across targets by navigation (`tabs.update`), and
removed at most once — only at job teardown, never between targets (while
the job is alive no `remove` has been requested). -/
theorem C6_sequential_single_tab (p : Payload) (evs : List Ev)
    (hacc : startRejected p = false) :
    countCreate (run (startJob initState p) evs).actions = 1 ∧
    countRemove (run (startJob initState p) evs).actions ≤ 1 ∧
    (∀ j, (run (startJob initState p) evs).job = some j →
       countRemove (run (startJob initState p) evs).actions = 0) := by
  have hI := invT_run (invT_start p hacc) evs
  cases hjob : (run (startJob initState p) evs).job with
  | some j =>
    have hr := runInv_of_invT hjob hI
    exact ⟨hr.create_once, by rw [hr.no_remove]; simp, fun j' _ => hr.no_remove⟩
  | none =>
    have hd := doneInv_of_invT hjob hI
    refine ⟨hd.create_once, hd.remove_le, fun j' hj' => ?_⟩
    cases hj'

theorem C6_witness :
    startRejected twoPayload = false ∧
    countCreate (run (startJob initState twoPayload) twoEvents).actions = 1 ∧
    countRemove (run (startJob initState twoPayload) twoEvents).actions ≤ 1 :=
  ⟨by decide, (C6_sequential_single_tab twoPayload twoEvents (by decide)).1,
    (C6_sequential_single_tab twoPayload twoEvents (by decide)).2.1⟩

theorem C4_witness :
    startRejected clear3Payload = false ∧
    (∃ k, k ≤ (normalizeUrls clear3Payload.videoUrls).length ∧
      progressDones (run (startJob initState clear3Payload) clear3Events).msgs
        = List.range' 1 k ∧
      ((∃ c t, RtMsg.complete c t "All videos processed."
          ∈ (run (startJob initState clear3Payload) clear3Events).msgs) →
        k = (normalizeUrls clear3Payload.videoUrls).length)) :=
  ⟨by decide, C4_progress_monotonicity clear3Payload clear3Events (by decide)⟩

/-- C9 counterexample: with the `twoPayload` job loading its first target
in hidden tab 7 (`c9State`), externally removing tab 7 leaves the
background state completely unchanged — the job still references the
disposed tab, no terminal outcome is recorded for the active target and
nothing advances: external closure of the bulk job's hidden surface is not
detected. -/
theorem C9_counterexample_removal_ignored :
    c9State.job.map Job.tabId = some (some 7) ∧
    step c9State (Ev.tabRemoved 7) = c9State := by
  exact ⟨by decide, rfl⟩

/-- C9 (amended): the `tabs.onRemoved` listener detects external closure
for the scrape/raid/bulk machinery — the first pending-scrape, pending-raid
and pending-playlist-update entry for the closed tab is deleted (so, when
tab ids are unique, no entry references the tab afterwards), scrape/raid
resolvers registered for the tab are invoked with `[]` and removed, and the
bulk-scan state is reset — but the `DirectVideoApplyJob` state is not
touched: the removal event is a no-op on the bulk job, which keeps
referencing the removed tab. -/
theorem C9_removal_cleans_registries_not_job (g : Registries) (t : Nat) (s : BgState) :
    ((g.pendingScrapes.map Prod.snd).Nodup →
       ∀ kv ∈ (onTabRemovedGlobals g t).1.pendingScrapes, kv.2 ≠ t) ∧
    ((g.pendingRaidCommands.map Prod.snd).Nodup →
       ∀ kv ∈ (onTabRemovedGlobals g t).1.pendingRaidCommands, kv.2 ≠ t) ∧
    ((g.pendingPlaylistUpdates.map Prod.snd).Nodup →
       ∀ kv ∈ (onTabRemovedGlobals g t).1.pendingPlaylistUpdates, kv.2 ≠ t) ∧
    t ∉ (onTabRemovedGlobals g t).1.playlistScrapeResolvers ∧
    t ∉ (onTabRemovedGlobals g t).1.raidTargetResolvers ∧
    (onTabRemovedGlobals g t).1.currentBulkTabId ≠ some t ∧
    (t ∈ g.playlistScrapeResolvers → [] ∈ (onTabRemovedGlobals g t).2) ∧
    step s (Ev.tabRemoved t) = s := by
  refine ⟨?_, ?_, ?_, ?_, ?_, ?_, ?_, rfl⟩
  · intro hnd
    have hfield : (onTabRemovedGlobals g t).1.pendingScrapes
        = deleteFirstByTab g.pendingScrapes t := by
      by_cases h1 : t ∈ g.playlistScrapeResolvers <;>
        by_cases h2 : t ∈ g.raidTargetResolvers <;>
        by_cases h3 : g.currentBulkTabId = some t <;>
        simp [onTabRemovedGlobals, h1, h2, h3]
    rw [hfield]
    exact deleteFirstByTab_unique hnd
  · intro hnd
    have hfield : (onTabRemovedGlobals g t).1.pendingRaidCommands
        = deleteFirstByTab g.pendingRaidCommands t := by
      by_cases h1 : t ∈ g.playlistScrapeResolvers <;>
        by_cases h2 : t ∈ g.raidTargetResolvers <;>
        by_cases h3 : g.currentBulkTabId = some t <;>
        simp [onTabRemovedGlobals, h1, h2, h3]
    rw [hfield]
    exact deleteFirstByTab_unique hnd
  · intro hnd
    have hfield : (onTabRemovedGlobals g t).1.pendingPlaylistUpdates
        = deleteFirstByTab g.pendingPlaylistUpdates t := by
      by_cases h1 : t ∈ g.playlistScrapeResolvers <;>
        by_cases h2 : t ∈ g.raidTargetResolvers <;>
        by_cases h3 : g.currentBulkTabId = some t <;>
        simp [onTabRemovedGlobals, h1, h2, h3]
    rw [hfield]
    exact deleteFirstByTab_unique hnd
  · by_cases h1 : t ∈ g.playlistScrapeResolvers <;>
      by_cases h2 : t ∈ g.raidTargetResolvers <;>
      by_cases h3 : g.currentBulkTabId = some t <;>
      simp [onTabRemovedGlobals, h1, h2, h3, List.mem_filter]
  · by_cases h1 : t ∈ g.playlistScrapeResolvers <;>
      by_cases h2 : t ∈ g.raidTargetResolvers <;>
      by_cases h3 : g.currentBulkTabId = some t <;>
      simp [onTabRemovedGlobals, h1, h2, h3, List.mem_filter]
  · by_cases h1 : t ∈ g.playlistScrapeResolvers <;>
      by_cases h2 : t ∈ g.raidTargetResolvers <;>
      by_cases h3 : g.currentBulkTabId = some t <;>
      simp [onTabRemovedGlobals, h1, h2, h3]
  · intro h1
    by_cases h2 : t ∈ g.raidTargetResolvers <;>
      by_cases h3 : g.currentBulkTabId = some t <;>
      simp [onTabRemovedGlobals, h1, h2, h3]

theorem C9_witness :
    7 ∉ (onTabRemovedGlobals c9Registries 7).1.playlistScrapeResolvers ∧
    (onTabRemovedGlobals c9Registries 7).1.currentBulkTabId ≠ some 7 ∧
    [] ∈ (onTabRemovedGlobals c9Registries 7).2 ∧
    step c9State (Ev.tabRemoved 7) = c9State :=
  ⟨(C9_removal_cleans_registries_not_job c9Registries 7 c9State).2.2.2.1,
   (C9_removal_cleans_registries_not_job c9Registries 7 c9State).2.2.2.2.2.1,
   (C9_removal_cleans_registries_not_job c9Registries 7 c9State).2.2.2.2.2.2.1 (by decide),
   (C9_removal_cleans_registries_not_job c9Registries 7 c9State).2.2.2.2.2.2.2⟩

/-- C10 counterexample: a `Clear` request on a video page whose
save-to-playlist overlay opens but fails to confirm/close reports
`ok = false` in its `videoWorkerResult` (the message's `ok` is
`ok && confirmed`), refuting the claim that a Clear request reports
`ok = true` whenever the overlay opens. -/
theorem C10_counterexample_clear_not_ok :
    (videoWorkerRun c10ClearPayload [] c10EnvNoConfirm).ok = false ∧
    (videoWorkerRun c10ClearPayload [] c10EnvNoConfirm).reason
      = some "overlay did not confirm/close in time or post-verify failed" := by
  exact ⟨by decide, by decide⟩

/-- C10 (amended): when the overlay opens, a `Clear` request's
`videoWorkerResult.ok` equals the overlay-confirmation outcome — it does
not depend on how many checkboxes were actually unchecked (zero included)
— whereas a `Set` request that named at least one playlist but matched
none in the overlay (nothing checked, nothing skipped) reports
`ok = false` with reason `no matching playlists found`, regardless of the
confirmation outcome. -/
theorem C10_clear_vs_set_result (p : VWPayload) (storage : List StoredPlaylist)
    (env : OverlayEnv) (hov : env.overlayOk = true) :
    (p.clearAll = true →
       (videoWorkerRun p storage env).ok = env.confirmed ∧
       (videoWorkerRun p storage env).reason
         = (if env.confirmed then none
            else some "overlay did not confirm/close in time or post-verify failed")) ∧
    (p.clearAll = false → vwNamesRaw p ≠ [] → env.checked = [] → env.skipped = [] →
       (videoWorkerRun p storage env).ok = false ∧
       (videoWorkerRun p storage env).reason = some "no matching playlists found") := by
  constructor
  · intro hca
    constructor <;> simp [videoWorkerRun, hov, hca]
  · intro hca hnames hch hsk
    have hne : (vwNamesRaw p).isEmpty = false := by
      cases h : vwNamesRaw p with
      | nil => exact absurd h hnames
      | cons a l => simp
    constructor <;> simp [videoWorkerRun, hov, hca, hch, hsk, hne]

theorem C10_witness :
    c10EnvNoMatch.overlayOk = true ∧
    ((videoWorkerRun c10SetPayload favDirectory c10EnvNoMatch).ok = false ∧
     (videoWorkerRun c10SetPayload favDirectory c10EnvNoMatch).reason
       = some "no matching playlists found") :=
  ⟨by decide,
    (C10_clear_vs_set_result c10SetPayload favDirectory c10EnvNoMatch (by decide)).2
      (by decide) (by decide) (by decide) (by decide)⟩

end RLO
